import Mathlib

/-!
Verification development for the Dronacharya quiz application.

The repository persists students, tests and results in a relational store,
in two variants: a networked backend (`src/server.ts`, SQLite behind four
HTTP endpoints) and an embedded backend
(`src/src/services/dataService.ts`, on-device SQLite driven directly).
Nested structures (the question sequence of a test, the answers and the
analysis of a result) are serialized with `JSON.stringify` on write and
`JSON.parse` on read into a single text column.

Modelling conventions:
* JSON documents are represented by the inductive `Json` below.  A stored
  JSON text column is modelled by the `Json` value it denotes:
  `JSON.stringify` and `JSON.parse` are the standard bijection between
  JSON values and their canonical text, so storing `stringify v` and
  reading it back with `parse` is modelled as storing `v`.  (For the
  external-service adapter, whose whole point is that the incoming text
  may fail to parse, a concrete textual parser `parseJson` is defined
  further below instead.)
* SQLite autoincrement ids are modelled as `max of existing ids + 1`;
  the application never deletes rows, for which this coincides with
  SQLite AUTOINCREMENT.
* `DATETIME DEFAULT CURRENT_TIMESTAMP` columns are modelled by a `Nat`
  timestamp supplied by the storage layer as an explicit argument.
* Numbers inside JSON documents are modelled as integers; the data the
  application stores there (question ids, scores) is integral.
-/

/-- A JSON value.  Object fields are kept in insertion order, as
JavaScript objects do. -/
inductive Json where
  | null : Json
  | bool : Bool → Json
  | num : Int → Json
  | str : String → Json
  | arr : List Json → Json
  | obj : List (String × Json) → Json
deriving Repr

/-- Field lookup in a JSON object field list: the value of the first field
with the given key (JavaScript property access on a parsed object). -/
def lookupField (k : String) : List (String × Json) → Option Json
  | [] => none
  | (k2, v) :: rest => if k2 = k then some v else lookupField k rest

/-- The `Question` shape of `src/src/types.ts` lines 8-14 (also declared
identically in `src/src/services/geminiService.ts` lines 5-11):
`id: number`, `question: string`, `options?: string[]` (optional),
`correctAnswer: string`, `explanation: string`. -/
structure Question where
  id : Int
  question : String
  options : Option (List String)
  correctAnswer : String
  explanation : String
deriving Repr, DecidableEq

/-- `JSON.stringify` of one JavaScript object of the `Question` shape,
viewed as the JSON value it produces: fields in declaration order, the
`options` field present exactly when the optional array is present
(an absent optional property is omitted by `JSON.stringify`). -/
def encodeQuestion (q : Question) : Json :=
  Json.obj ([("id", Json.num q.id), ("question", Json.str q.question)]
    ++ (match q.options with
        | some os => [("options", Json.arr (os.map Json.str))]
        | none => [])
    ++ [("correctAnswer", Json.str q.correctAnswer),
        ("explanation", Json.str q.explanation)])

/-- `JSON.stringify` of a JavaScript array of `Question` objects. -/
def encodeQuestions (qs : List Question) : Json :=
  Json.arr (qs.map encodeQuestion)

/-- Reads a JSON value back as a string (used for the members of the
`options` array). -/
def Json.asStr : Json → Option String
  | .str s => some s
  | _ => none

/-- Reads a JSON value back as an integer. -/
def Json.asInt : Json → Option Int
  | .num n => some n
  | _ => none

/-- Applies a fallible reader to every element, failing when any element
fails (the effect of `List.mapM` in the `Option` monad, spelt out). -/
def mapOption (f : α → Option β) : List α → Option (List β)
  | [] => some []
  | a :: l =>
    match f a with
    | none => none
    | some b => (mapOption f l).map (b :: ·)

/-- Reads a JSON value back as an array of strings. -/
def decodeStrList : Json → Option (List String)
  | .arr xs => mapOption Json.asStr xs
  | _ => none

/-- Structural read-back of one JSON value as the `Question` shape of
`src/src/types.ts`: succeeds exactly when the value is an object carrying
the declared fields (with `options` optional), and returns the `Question`
it denotes.  `decodeQuestion (encodeQuestion q) = some q` is the statement
that the JSON round-trip is lossless for one question. -/
def decodeQuestion (j : Json) : Option Question :=
  match j with
  | .obj fs =>
    match (lookupField "id" fs).bind Json.asInt with
    | none => none
    | some i =>
      match (lookupField "question" fs).bind Json.asStr with
      | none => none
      | some qt =>
        match (match lookupField "options" fs with
               | none => some none
               | some v => (decodeStrList v).map some) with
        | none => none
        | some opts =>
          match (lookupField "correctAnswer" fs).bind Json.asStr with
          | none => none
          | some ca =>
            match (lookupField "explanation" fs).bind Json.asStr with
            | none => none
            | some ex => some ⟨i, qt, opts, ca, ex⟩
  | _ => none

/-- Structural read-back of a JSON value as a sequence of `Question`s. -/
def decodeQuestions (j : Json) : Option (List Question) :=
  match j with
  | .arr xs => mapOption decodeQuestion xs
  | _ => none

theorem mapOption_asStr_map_str (os : List String) :
    mapOption Json.asStr (os.map Json.str) = some os := by
  induction os with
  | nil => rfl
  | cons o os ih => simp [mapOption, ih, Json.asStr]

/-- One question survives the JSON encode/decode round trip, including
presence or absence of the optional `options` array. -/
theorem decodeQuestion_encodeQuestion (q : Question) :
    decodeQuestion (encodeQuestion q) = some q := by
  obtain ⟨i, qt, opts, ca, ex⟩ := q
  cases opts with
  | none =>
    simp [encodeQuestion, decodeQuestion, lookupField, Json.asInt, Json.asStr]
  | some os =>
    simp [encodeQuestion, decodeQuestion, lookupField, Json.asInt, Json.asStr,
      decodeStrList, mapOption_asStr_map_str]

/-- A question sequence survives the JSON encode/decode round trip. -/
theorem decodeQuestions_encodeQuestions (qs : List Question) :
    decodeQuestions (encodeQuestions qs) = some qs := by
  induction qs with
  | nil => rfl
  | cons q qs ih =>
    simp only [encodeQuestions, decodeQuestions, List.map_cons, mapOption,
      decodeQuestion_encodeQuestion] at *
    simp [ih]

/-! ## The relational store

Row and store types shared by both backends.  Stored JSON text columns
(`tests.questions`, `results.answers`, `results.analysis`) are modelled by
the `Json` value the stored text denotes. -/

/-- A row of the `students` table: `id, name, age, class`.  The `class`
column is called `className` here because `class` is a Lean keyword; it is
also the name the TypeScript request bodies use for the same value. -/
structure StudentRow where
  id : Nat
  name : String
  age : Int
  className : String
deriving Repr, DecidableEq

/-- A row of the `tests` table: `id, student_id, topic, complexity,
concepts, questions (JSON text), created_at`. -/
structure TestRow where
  id : Nat
  student_id : Nat
  topic : String
  complexity : String
  concepts : String
  questions : Json
  created_at : Nat
deriving Repr

/-- A row of the `results` table: `id, test_id, answers (JSON text),
score, feedback, analysis (JSON text), completed_at`.  `score`, `feedback`
and `analysis` are nullable columns. -/
structure ResultRow where
  id : Nat
  test_id : Nat
  answers : Json
  score : Option Int
  feedback : Option String
  analysis : Option Json
  completed_at : Nat
deriving Repr

/-- One row of the `getHistory` response: `t.*` of a test row left-outer
joined with `r.score, r.feedback, r.analysis, r.completed_at` of a result
row, all four null when the test has no result. -/
structure HistoryRow where
  id : Nat
  student_id : Nat
  topic : String
  complexity : String
  concepts : String
  questions : Json
  created_at : Nat
  score : Option Int
  feedback : Option String
  analysis : Option Json
  completed_at : Option Nat
deriving Repr

/-- The three tables of one backend's store. -/
structure Store where
  students : List StudentRow
  tests : List TestRow
  results : List ResultRow
deriving Repr

/-- Response shape of `saveTest` and `saveResult`: the new row id. -/
structure IdResp where
  id : Nat
deriving Repr, DecidableEq

/-- SQLite id assignment for an `INTEGER PRIMARY KEY AUTOINCREMENT`
column: one more than the largest id ever used; since the application
never deletes rows this is one more than the largest current id (and 1 on
an empty table). -/
def nextId (ids : List Nat) : Nat :=
  ids.foldr max 0 + 1

/-- `SELECT * FROM students WHERE name = ? AND age = ? AND class = ?`,
taking the first matching row (`.get()` on the networked backend,
`result.values[0]` on the embedded one). -/
def findStudent (name : String) (age : Int) (className : String)
    (rows : List StudentRow) : Option StudentRow :=
  rows.find? fun st =>
    st.name == name && st.age == age && st.className == className

/-- `SELECT t.*, r.score, r.feedback, r.analysis, r.completed_at FROM
tests t LEFT JOIN results r ON t.id = r.test_id` restricted to one test
row `t`: one output row per matching result row, or a single row with the
four result columns null when no result matches. -/
def joinResults (t : TestRow) (results : List ResultRow) : List HistoryRow :=
  match results.filter (fun r => r.test_id == t.id) with
  | [] => [⟨t.id, t.student_id, t.topic, t.complexity, t.concepts,
           t.questions, t.created_at, none, none, none, none⟩]
  | rs => rs.map fun r =>
      ⟨t.id, t.student_id, t.topic, t.complexity, t.concepts,
       t.questions, t.created_at, r.score, r.feedback, r.analysis,
       some r.completed_at⟩

/-- `ORDER BY created_at DESC`: insert one test row into a list already
sorted by `created_at` descending. -/
def insertDesc (t : TestRow) : List TestRow → List TestRow
  | [] => [t]
  | u :: rest =>
    if u.created_at ≤ t.created_at then t :: u :: rest
    else u :: insertDesc t rest

/-- `ORDER BY created_at DESC`: sort test rows by `created_at` descending
(insertion sort; SQLite fixes no order among equal keys, and the claims
below only involve pairwise distinct timestamps). -/
def sortByCreatedAtDesc : List TestRow → List TestRow
  | [] => []
  | t :: rest => insertDesc t (sortByCreatedAtDesc rest)

/-- The row mapping of the history handlers (`server.ts` lines 98-102 and
`dataService.ts` lines 107-111): `questions: JSON.parse(h.questions)` and
`analysis: h.analysis ? JSON.parse(h.analysis) : null`.  At the JSON-value
level parsing the stored text is the identity, and a null stored analysis
stays null, so the mapping returns the row unchanged. -/
def parseHistoryRow (h : HistoryRow) : HistoryRow :=
  { h with
    questions := h.questions,
    analysis := match h.analysis with
      | some a => some a
      | none => none }

theorem parseHistoryRow_eq (h : HistoryRow) : parseHistoryRow h = h := by
  obtain ⟨_, _, _, _, _, _, _, _, _, an, _⟩ := h
  cases an <;> rfl

theorem map_parseHistoryRow (l : List HistoryRow) :
    l.map parseHistoryRow = l := by
  induction l with
  | nil => rfl
  | cons h t ih => simp [parseHistoryRow_eq, ih]

namespace Server

/-! Store-level semantics of the four route handlers of `src/server.ts`
(the networked backend). -/

/-- `POST /api/login` (`server.ts` lines 57-74): look the student up by
the `(name, age, class)` triple; if a row is found return it unchanged,
otherwise insert a new row and return it with the freshly assigned id.
Absence of a row is not an error: it triggers the insert. -/
def login (name : String) (age : Int) (className : String) (s : Store) :
    StudentRow × Store :=
  match findStudent name age className s.students with
  | some st => (st, s)
  | none =>
    let newId := nextId (s.students.map (·.id))
    let st : StudentRow := ⟨newId, name, age, className⟩
    (st, { s with students := s.students ++ [st] })

/-- `POST /api/tests` (`server.ts` lines 76-86): insert a test row with
`JSON.stringify(questions)` in the `questions` column and the
storage-assigned creation timestamp, and return the new id. -/
def saveTest (studentId : Nat) (topic complexity concepts : String)
    (questions : List Question) (now : Nat) (s : Store) : IdResp × Store :=
  let newId := nextId (s.tests.map (·.id))
  let row : TestRow :=
    ⟨newId, studentId, topic, complexity, concepts,
     encodeQuestions questions, now⟩
  (⟨newId⟩, { s with tests := s.tests ++ [row] })

/-- `GET /api/students/:id/history` (`server.ts` lines 88-108): the
tests of the student, left-outer joined with their results, ordered by
test creation time descending, with the stored JSON columns parsed back
per row. -/
def getHistory (studentId : Nat) (s : Store) : List HistoryRow :=
  ((sortByCreatedAtDesc (s.tests.filter (fun t => t.student_id == studentId))).flatMap
    (fun t => joinResults t s.results)).map parseHistoryRow

end Server

namespace DataService

/-! Store-level semantics of the embedded (`isMobile`) branches of
`src/src/services/dataService.ts`, line-for-line parallel to the
networked handlers above; this level assumes the SQLite driver reports
the assigned row id (`insert.changes?.lastId`) — the driver-level model
further below drops that assumption. -/

/-- Embedded branch of `DataService.login` (`dataService.ts` lines
65-74): query by the `(name, age, class)` triple, return the first row if
any, otherwise insert and return the new student. -/
def login (name : String) (age : Int) (className : String) (s : Store) :
    StudentRow × Store :=
  match findStudent name age className s.students with
  | some st => (st, s)
  | none =>
    let newId := nextId (s.students.map (·.id))
    let st : StudentRow := ⟨newId, name, age, className⟩
    (st, { s with students := s.students ++ [st] })

/-- Embedded branch of `DataService.saveTest` (`dataService.ts` lines
85-91): insert a test row with `JSON.stringify(questions)` and return the
new id. -/
def saveTest (studentId : Nat) (topic complexity concepts : String)
    (questions : List Question) (now : Nat) (s : Store) : IdResp × Store :=
  let newId := nextId (s.tests.map (·.id))
  let row : TestRow :=
    ⟨newId, studentId, topic, complexity, concepts,
     encodeQuestions questions, now⟩
  (⟨newId⟩, { s with tests := s.tests ++ [row] })

/-- Embedded branch of `DataService.getHistory` (`dataService.ts` lines
98-112): same join, order and row mapping as the networked handler. -/
def getHistory (studentId : Nat) (s : Store) : List HistoryRow :=
  ((sortByCreatedAtDesc (s.tests.filter (fun t => t.student_id == studentId))).flatMap
    (fun t => joinResults t s.results)).map parseHistoryRow

/-- Embedded branch of `DataService.saveResult` (`dataService.ts` lines
123-129): insert a result row unconditionally — the embedded schema
declares no foreign key on `results.test_id`, so nothing checks that the
referenced test exists — and return the new id. -/
def saveResult (testId : Nat) (answers : Json) (score : Option Int)
    (feedback : Option String) (analysis : Option Json) (now : Nat)
    (s : Store) : IdResp × Store :=
  let newId := nextId (s.results.map (·.id))
  let row : ResultRow :=
    ⟨newId, testId, answers, score, feedback, analysis, now⟩
  (⟨newId⟩, { s with results := s.results ++ [row] })

end DataService

/-! ## Lemmas about sorting and joining -/

theorem mem_insertDesc {a t : TestRow} {l : List TestRow} :
    a ∈ insertDesc t l ↔ a = t ∨ a ∈ l := by
  induction l with
  | nil => simp [insertDesc]
  | cons u rest ih =>
    by_cases h : u.created_at ≤ t.created_at
    · simp [insertDesc, h]
    · simp [insertDesc, h, ih]
      tauto

theorem mem_sortByCreatedAtDesc {a : TestRow} {l : List TestRow} :
    a ∈ sortByCreatedAtDesc l ↔ a ∈ l := by
  induction l with
  | nil => simp [sortByCreatedAtDesc]
  | cons t rest ih =>
    simp [sortByCreatedAtDesc, mem_insertDesc, ih]

/-- Every test row yields at least one joined row, and every joined row
for it carries the test's own columns (in particular its `questions`
document) unchanged. -/
theorem joinResults_exists (t : TestRow) (rs : List ResultRow) :
    ∃ row ∈ joinResults t rs, row.id = t.id ∧ row.student_id = t.student_id
      ∧ row.questions = t.questions ∧ row.created_at = t.created_at := by
  unfold joinResults
  cases h : rs.filter (fun r => r.test_id == t.id) with
  | nil => exact ⟨_, List.mem_singleton.mpr rfl, rfl, rfl, rfl, rfl⟩
  | cons r rest =>
    refine ⟨_, List.mem_map.mpr ⟨r, List.mem_cons_self r rest, rfl⟩, rfl, rfl, rfl, rfl⟩

/-- A test with no matching result joins to exactly one row, with all
four result-derived columns null. -/
theorem joinResults_of_no_match (t : TestRow) (rs : List ResultRow)
    (h : ∀ r ∈ rs, r.test_id ≠ t.id) :
    joinResults t rs =
      [⟨t.id, t.student_id, t.topic, t.complexity, t.concepts,
        t.questions, t.created_at, none, none, none, none⟩] := by
  unfold joinResults
  have hfil : rs.filter (fun r => r.test_id == t.id) = [] := by
    apply List.filter_eq_nil_iff.mpr
    intro r hr
    simpa using h r hr
  rw [hfil]

/-! ## Claim C1: round-trip of nested structures through save and read -/

/-- Claim C1.  Round-trip of nested structures: for every store, every
student and every question sequence `Q`, saving a test via
`saveTest(studentId, topic, complexity, concepts, Q)` and then calling
`getHistory(studentId)` returns a row for the new test whose stored
`questions` document is exactly the encoding of `Q` and reads back as
exactly `Q` — the JSON encoding on write and the decoding on read compose
to the identity on the `Question` shape, including presence or absence of
the optional `options` array — on the networked backend (`Server`) and on
the embedded backend (`DataService`) alike. -/
theorem claim_C1_roundtrip (s : Store) (studentId : Nat)
    (topic complexity concepts : String) (Q : List Question) (now : Nat) :
    (∃ row ∈ Server.getHistory studentId
        (Server.saveTest studentId topic complexity concepts Q now s).2,
      row.id = (Server.saveTest studentId topic complexity concepts Q now s).1.id
        ∧ row.questions = encodeQuestions Q
        ∧ decodeQuestions row.questions = some Q)
    ∧ (∃ row ∈ DataService.getHistory studentId
        (DataService.saveTest studentId topic complexity concepts Q now s).2,
      row.id = (DataService.saveTest studentId topic complexity concepts Q now s).1.id
        ∧ row.questions = encodeQuestions Q
        ∧ decodeQuestions row.questions = some Q) := by
  have core : ∃ row ∈ Server.getHistory studentId
      (Server.saveTest studentId topic complexity concepts Q now s).2,
      row.id = (Server.saveTest studentId topic complexity concepts Q now s).1.id
        ∧ row.questions = encodeQuestions Q
        ∧ decodeQuestions row.questions = some Q := by
    set newRow : TestRow :=
      ⟨nextId (s.tests.map (·.id)), studentId, topic, complexity, concepts,
       encodeQuestions Q, now⟩ with hrow
    have hmemT : newRow ∈
        ((s.tests ++ [newRow]).filter (fun t => t.student_id == studentId)) := by
      refine List.mem_filter.mpr ⟨List.mem_append_right _ (List.mem_singleton.mpr rfl), ?_⟩
      simp [hrow]
    obtain ⟨row, hrowMem, hid, _, hq, _⟩ := joinResults_exists newRow s.results
    refine ⟨row, ?_, ?_, ?_, ?_⟩
    · show row ∈ Server.getHistory studentId _
      unfold Server.getHistory Server.saveTest
      rw [map_parseHistoryRow]
      exact List.mem_flatMap.mpr
        ⟨newRow, mem_sortByCreatedAtDesc.mpr hmemT, hrowMem⟩
    · simpa [Server.saveTest] using hid
    · simpa using hq
    · rw [hq]
      exact decodeQuestions_encodeQuestions Q
  exact ⟨core, core⟩

/-! ## Claim C2: login idempotence on the (name, age, class) key -/

theorem le_foldr_max {i : Nat} {ids : List Nat} (h : i ∈ ids) :
    i ≤ ids.foldr max 0 := by
  induction ids with
  | nil => cases h
  | cons j ids ih =>
    rcases List.mem_cons.mp h with rfl | h2
    · exact Nat.le_max_left _ _
    · exact le_trans (ih h2) (Nat.le_max_right _ _)

/-- A freshly assigned autoincrement id differs from every existing id. -/
theorem nextId_not_mem (ids : List Nat) : nextId ids ∉ ids := by
  intro h
  have h1 := le_foldr_max h
  unfold nextId at h1
  omega

/-- The triple lookup finds a freshly inserted row for its own triple. -/
theorem findStudent_append_self (name : String) (age : Int)
    (className : String) (rows : List StudentRow) (st : StudentRow)
    (hname : st.name = name) (hage : st.age = age)
    (hclass : st.className = className)
    (h : findStudent name age className rows = none) :
    findStudent name age className (rows ++ [st]) = some st := by
  unfold findStudent at *
  rw [List.find?_append, h]
  simp [hname, hage, hclass]

/-- Claim C2.  Login idempotence on the `(name, age, class)` key, on both
backends.  For every triple and every store: (1) if a student with that
triple exists, `login` returns the existing record unchanged — with its
existing identifier — and leaves the store unchanged; (2) if none exists,
`login` creates a new student with a freshly assigned identifier, distinct
from every existing identifier, and returns it; (3) two sequential
`login` calls with the same triple return the same identifier both times.
`login` is a total function of the store: absence of a matching row never
produces an error, it triggers creation. -/
theorem claim_C2_login_idempotent (name : String) (age : Int)
    (className : String) (s : Store) :
    ((∀ st, findStudent name age className s.students = some st →
        Server.login name age className s = (st, s))
      ∧ (findStudent name age className s.students = none →
          (Server.login name age className s).1 =
            ⟨nextId (s.students.map (·.id)), name, age, className⟩
          ∧ ∀ st ∈ s.students, st.id ≠ (Server.login name age className s).1.id)
      ∧ (Server.login name age className
          (Server.login name age className s).2).1.id =
          (Server.login name age className s).1.id)
    ∧ ((∀ st, findStudent name age className s.students = some st →
        DataService.login name age className s = (st, s))
      ∧ (findStudent name age className s.students = none →
          (DataService.login name age className s).1 =
            ⟨nextId (s.students.map (·.id)), name, age, className⟩
          ∧ ∀ st ∈ s.students, st.id ≠ (DataService.login name age className s).1.id)
      ∧ (DataService.login name age className
          (DataService.login name age className s).2).1.id =
          (DataService.login name age className s).1.id) := by
  have core : (∀ st, findStudent name age className s.students = some st →
        Server.login name age className s = (st, s))
      ∧ (findStudent name age className s.students = none →
          (Server.login name age className s).1 =
            ⟨nextId (s.students.map (·.id)), name, age, className⟩
          ∧ ∀ st ∈ s.students, st.id ≠ (Server.login name age className s).1.id)
      ∧ (Server.login name age className
          (Server.login name age className s).2).1.id =
          (Server.login name age className s).1.id := by
    have hfound : ∀ st, findStudent name age className s.students = some st →
        Server.login name age className s = (st, s) := by
      intro st h
      unfold Server.login
      rw [h]
    have hnew : findStudent name age className s.students = none →
        Server.login name age className s =
          (⟨nextId (s.students.map (·.id)), name, age, className⟩,
           { s with students := s.students ++
              [⟨nextId (s.students.map (·.id)), name, age, className⟩] }) := by
      intro h
      unfold Server.login
      rw [h]
    refine ⟨hfound, ?_, ?_⟩
    · intro h
      rw [hnew h]
      refine ⟨rfl, ?_⟩
      intro st hmem heq
      have heq2 : st.id = nextId (s.students.map (·.id)) := heq
      exact nextId_not_mem (s.students.map (·.id))
        (heq2 ▸ List.mem_map.mpr ⟨st, hmem, rfl⟩)
    · cases h : findStudent name age className s.students with
      | some st =>
        have h2 : Server.login name age className
            ((Server.login name age className s).2) = (st, s) := by
          rw [hfound st h]
          exact hfound st h
        rw [h2, hfound st h]
      | none =>
        have h2 : findStudent name age className
            (s.students ++ [⟨nextId (s.students.map (·.id)), name, age, className⟩])
            = some ⟨nextId (s.students.map (·.id)), name, age, className⟩ :=
          findStudent_append_self name age className s.students _ rfl rfl rfl h
        have h3 : Server.login name age className
            ((Server.login name age className s).2) =
            (⟨nextId (s.students.map (·.id)), name, age, className⟩,
             (Server.login name age className s).2) := by
          rw [hnew h]
          unfold Server.login
          exact h2 ▸ rfl
        rw [h3, hnew h]
  exact ⟨core, core⟩

/-- Witness for C2: concrete runs of `login` on both backends.  A login
for a triple already present returns the stored row and identifier
unchanged; from an empty store, a login creates id 1 and a second login
with the same triple returns the same identifier. -/
theorem claim_C2_login_idempotent_witness :
    Server.login "Ann" 10 "5th" ⟨[⟨1, "Ann", 10, "5th"⟩], [], []⟩
      = (⟨1, "Ann", 10, "5th"⟩, ⟨[⟨1, "Ann", 10, "5th"⟩], [], []⟩)
    ∧ (DataService.login "Ann" 10 "5th" ⟨[], [], []⟩).1 = ⟨1, "Ann", 10, "5th"⟩
    ∧ (Server.login "Ann" 10 "5th"
        ((Server.login "Ann" 10 "5th" ⟨[], [], []⟩).2)).1.id
      = (Server.login "Ann" 10 "5th" ⟨[], [], []⟩).1.id := by
  refine ⟨?_, ?_, ?_⟩
  · exact (claim_C2_login_idempotent "Ann" 10 "5th" _).1.1 ⟨1, "Ann", 10, "5th"⟩ rfl
  · exact ((claim_C2_login_idempotent "Ann" 10 "5th" ⟨[], [], []⟩).2.2.1 rfl).1
  · exact (claim_C2_login_idempotent "Ann" 10 "5th" ⟨[], [], []⟩).1.2.2

/-! ## Claim C3: history ordering by creation time descending -/

theorem mem_lt_nextId {i : Nat} {ids : List Nat} (h : i ∈ ids) :
    i < nextId ids := by
  have h1 := le_foldr_max h
  unfold nextId
  omega

/-- Descending insertion sort of three rows with strictly increasing
creation times reverses them. -/
theorem sortDesc_three (T1 T2 T3 : TestRow)
    (h12 : T1.created_at < T2.created_at)
    (h23 : T2.created_at < T3.created_at) :
    sortByCreatedAtDesc [T1, T2, T3] = [T3, T2, T1] := by
  have e2 : insertDesc T2 [T3] = [T3, T2] := by
    unfold insertDesc
    rw [if_neg (by omega)]
    rfl
  have e1 : insertDesc T1 [T3, T2] = [T3, T2, T1] := by
    unfold insertDesc
    rw [if_neg (by omega)]
    unfold insertDesc
    rw [if_neg (by omega)]
    rfl
  calc sortByCreatedAtDesc [T1, T2, T3]
      = insertDesc T1 (insertDesc T2 (insertDesc T3 [])) := rfl
    _ = insertDesc T1 (insertDesc T2 [T3]) := rfl
    _ = insertDesc T1 [T3, T2] := by rw [e2]
    _ = [T3, T2, T1] := e1

/-- Claim C3.  History ordering, on both backends: starting from any
store in which the student has no tests yet and every stored result
references a stored test, saving three tests at strictly increasing
creation times t1 < t2 < t3 and then reading the history returns exactly
those three tests most recent first, i.e. in the order [t3, t2, t1]. -/
theorem claim_C3_history_ordering (s : Store) (sid : Nat)
    (top1 cpx1 con1 top2 cpx2 con2 top3 cpx3 con3 : String)
    (Q1 Q2 Q3 : List Question) (t1 t2 t3 : Nat)
    (h12 : t1 < t2) (h23 : t2 < t3)
    (hmine : s.tests.filter (fun t => t.student_id == sid) = [])
    (hres : ∀ r ∈ s.results, ∃ t ∈ s.tests, r.test_id = t.id) :
    ((Server.getHistory sid
        (Server.saveTest sid top3 cpx3 con3 Q3 t3
          (Server.saveTest sid top2 cpx2 con2 Q2 t2
            (Server.saveTest sid top1 cpx1 con1 Q1 t1 s).2).2).2).map
      (fun r => (r.topic, r.created_at)) = [(top3, t3), (top2, t2), (top1, t1)])
    ∧ ((DataService.getHistory sid
        (DataService.saveTest sid top3 cpx3 con3 Q3 t3
          (DataService.saveTest sid top2 cpx2 con2 Q2 t2
            (DataService.saveTest sid top1 cpx1 con1 Q1 t1 s).2).2).2).map
      (fun r => (r.topic, r.created_at)) = [(top3, t3), (top2, t2), (top1, t1)]) := by
  set T1 : TestRow :=
    ⟨nextId (s.tests.map (·.id)), sid, top1, cpx1, con1,
     encodeQuestions Q1, t1⟩ with hT1
  set T2 : TestRow :=
    ⟨nextId ((s.tests ++ [T1]).map (·.id)), sid, top2, cpx2, con2,
     encodeQuestions Q2, t2⟩ with hT2
  set T3 : TestRow :=
    ⟨nextId (((s.tests ++ [T1]) ++ [T2]).map (·.id)), sid, top3, cpx3, con3,
     encodeQuestions Q3, t3⟩ with hT3
  have hs3 : (Server.saveTest sid top3 cpx3 con3 Q3 t3
      (Server.saveTest sid top2 cpx2 con2 Q2 t2
        (Server.saveTest sid top1 cpx1 con1 Q1 t1 s).2).2).2
      = { s with tests := ((s.tests ++ [T1]) ++ [T2]) ++ [T3] } := rfl
  have hnomatch : ∀ X : TestRow, X.id = T1.id ∨ X.id = T2.id ∨ X.id = T3.id →
      ∀ r ∈ s.results, r.test_id ≠ X.id := by
    intro X hX r hr heq
    obtain ⟨t, ht, hti⟩ := hres r hr
    have h1 : t.id < nextId (s.tests.map (·.id)) :=
      mem_lt_nextId (List.mem_map.mpr ⟨t, ht, rfl⟩)
    have h2 : t.id < nextId ((s.tests ++ [T1]).map (·.id)) :=
      mem_lt_nextId (List.mem_map.mpr ⟨t, List.mem_append_left _ ht, rfl⟩)
    have h3 : t.id < nextId (((s.tests ++ [T1]) ++ [T2]).map (·.id)) :=
      mem_lt_nextId (List.mem_map.mpr
        ⟨t, List.mem_append_left _ (List.mem_append_left _ ht), rfl⟩)
    rw [hti] at heq
    rcases hX with hX | hX | hX
    · have e : X.id = nextId (s.tests.map (·.id)) := hX
      rw [e] at heq
      omega
    · have e : X.id = nextId ((s.tests ++ [T1]).map (·.id)) := hX
      rw [e] at heq
      omega
    · have e : X.id = nextId (((s.tests ++ [T1]) ++ [T2]).map (·.id)) := hX
      rw [e] at heq
      omega
  have hfil : (((s.tests ++ [T1]) ++ [T2]) ++ [T3]).filter
      (fun t => t.student_id == sid) = [T1, T2, T3] := by
    rw [List.filter_append, List.filter_append, List.filter_append, hmine]
    simp [hT1, hT2, hT3]
  have hsorted : sortByCreatedAtDesc [T1, T2, T3] = [T3, T2, T1] :=
    sortDesc_three T1 T2 T3 (by simp [hT1, hT2]; omega) (by simp [hT2, hT3]; omega)
  have hjoin : ∀ X : TestRow, X.id = T1.id ∨ X.id = T2.id ∨ X.id = T3.id →
      joinResults X s.results =
        [⟨X.id, X.student_id, X.topic, X.complexity, X.concepts,
          X.questions, X.created_at, none, none, none, none⟩] := by
    intro X hX
    exact joinResults_of_no_match X s.results
      (fun r hr => hnomatch X hX r hr)
  have core : (Server.getHistory sid
      (Server.saveTest sid top3 cpx3 con3 Q3 t3
        (Server.saveTest sid top2 cpx2 con2 Q2 t2
          (Server.saveTest sid top1 cpx1 con1 Q1 t1 s).2).2).2).map
      (fun r => (r.topic, r.created_at)) = [(top3, t3), (top2, t2), (top1, t1)] := by
    rw [hs3]
    unfold Server.getHistory
    rw [show ({ s with tests := ((s.tests ++ [T1]) ++ [T2]) ++ [T3] } : Store).tests
        = ((s.tests ++ [T1]) ++ [T2]) ++ [T3] from rfl]
    rw [show ({ s with tests := ((s.tests ++ [T1]) ++ [T2]) ++ [T3] } : Store).results
        = s.results from rfl]
    rw [hfil, hsorted]
    rw [List.flatMap_cons, List.flatMap_cons, List.flatMap_cons, List.flatMap_nil]
    rw [hjoin T3 (Or.inr (Or.inr rfl)), hjoin T2 (Or.inr (Or.inl rfl)),
      hjoin T1 (Or.inl rfl)]
    simp [hT1, hT2, hT3, parseHistoryRow]
  exact ⟨core, core⟩

/-- Witness for C3: from an empty store, three saves at times 1 < 2 < 3
read back most recent first. -/
theorem claim_C3_history_ordering_witness :
    (Server.getHistory 1
      (Server.saveTest 1 "C" "Easy" "" [] 3
        (Server.saveTest 1 "B" "Easy" "" [] 2
          (Server.saveTest 1 "A" "Easy" "" [] 1 ⟨[], [], []⟩).2).2).2).map
      (fun r => (r.topic, r.created_at)) = [("C", 3), ("B", 2), ("A", 1)] :=
  (claim_C3_history_ordering ⟨[], [], []⟩ 1 "A" "Easy" "" "B" "Easy" "" "C" "Easy" ""
    [] [] [] 1 2 3 (by decide) (by decide) rfl
    (by intro r hr; cases hr)).1

/-! ## Claim C4: null-safe left-outer join -/

/-- Claim C4.  Null-safe left-outer join, on both backends: a saved test
with no saved result still appears as a row of `getHistory` for its
student — with `score`, `feedback`, `analysis` (and `completed_at`) all
null — rather than being omitted. -/
theorem claim_C4_null_safe_join (s : Store) (sid : Nat) (t : TestRow)
    (hmem : t ∈ s.tests) (hsid : t.student_id = sid)
    (hnores : ∀ r ∈ s.results, r.test_id ≠ t.id) :
    (∃ row ∈ Server.getHistory sid s,
      row.id = t.id ∧ row.created_at = t.created_at
        ∧ row.score = none ∧ row.feedback = none ∧ row.analysis = none
        ∧ row.completed_at = none)
    ∧ (∃ row ∈ DataService.getHistory sid s,
      row.id = t.id ∧ row.created_at = t.created_at
        ∧ row.score = none ∧ row.feedback = none ∧ row.analysis = none
        ∧ row.completed_at = none) := by
  have core : ∃ row ∈ Server.getHistory sid s,
      row.id = t.id ∧ row.created_at = t.created_at
        ∧ row.score = none ∧ row.feedback = none ∧ row.analysis = none
        ∧ row.completed_at = none := by
    have hjoin := joinResults_of_no_match t s.results hnores
    have hmemFil : t ∈ s.tests.filter (fun u => u.student_id == sid) :=
      List.mem_filter.mpr ⟨hmem, by simp [hsid]⟩
    refine ⟨⟨t.id, t.student_id, t.topic, t.complexity, t.concepts,
      t.questions, t.created_at, none, none, none, none⟩, ?_, rfl, rfl, rfl, rfl, rfl, rfl⟩
    unfold Server.getHistory
    rw [map_parseHistoryRow]
    refine List.mem_flatMap.mpr ⟨t, mem_sortByCreatedAtDesc.mpr hmemFil, ?_⟩
    rw [hjoin]
    exact List.mem_singleton.mpr rfl
  exact ⟨core, core⟩

/-- Witness for C4: a store holding one student, one test and no results;
the history row for the test is present with all result columns null. -/
theorem claim_C4_null_safe_join_witness :
    ∃ row ∈ Server.getHistory 1
        ⟨[⟨1, "Sam", 9, "4th"⟩],
         [⟨1, 1, "Fractions", "Easy", "", Json.arr [], 5⟩], []⟩,
      row.id = 1 ∧ row.created_at = 5
        ∧ row.score = none ∧ row.feedback = none ∧ row.analysis = none
        ∧ row.completed_at = none := by
  have h := (claim_C4_null_safe_join
    ⟨[⟨1, "Sam", 9, "4th"⟩], [⟨1, 1, "Fractions", "Easy", "", Json.arr [], 5⟩], []⟩
    1 ⟨1, 1, "Fractions", "Easy", "", Json.arr [], 5⟩
    (List.mem_singleton.mpr rfl) rfl (by intro r hr; cases hr)).1
  exact h

/-! ## The schema manager

Transliteration of the two schema-provisioning scripts: `db.exec(...)` in
`src/server.ts` lines 12-42 (networked backend) and `this.db.execute(...)`
in `src/src/services/dataService.ts` lines 24-49 (embedded backend).
Each `CREATE TABLE IF NOT EXISTS` statement is modelled as a `TableDef`;
`sqlType` is the column's SQL spelling after the column name, and
`constraints` lists the table-level constraint clauses. -/

/-- One column of a `CREATE TABLE` statement. -/
structure ColumnDef where
  name : String
  sqlType : String
deriving Repr, DecidableEq

/-- One table-level constraint clause of a `CREATE TABLE` statement. -/
inductive TableConstraint where
  | uniqueCols (cols : List String)
  | foreignKey (col refTable refCol : String)
deriving Repr, DecidableEq

/-- One `CREATE TABLE` statement. -/
structure TableDef where
  name : String
  columns : List ColumnDef
  constraints : List TableConstraint
deriving Repr, DecidableEq

/-- `students` on the networked backend (`server.ts` lines 13-19). -/
def serverStudents : TableDef :=
  ⟨"students",
   [⟨"id", "INTEGER PRIMARY KEY AUTOINCREMENT"⟩,
    ⟨"name", "TEXT NOT NULL"⟩,
    ⟨"age", "INTEGER NOT NULL"⟩,
    ⟨"class", "TEXT NOT NULL"⟩],
   [.uniqueCols ["name", "age", "class"]]⟩

/-- `tests` on the networked backend (`server.ts` lines 21-30). -/
def serverTests : TableDef :=
  ⟨"tests",
   [⟨"id", "INTEGER PRIMARY KEY AUTOINCREMENT"⟩,
    ⟨"student_id", "INTEGER NOT NULL"⟩,
    ⟨"topic", "TEXT NOT NULL"⟩,
    ⟨"complexity", "TEXT NOT NULL"⟩,
    ⟨"concepts", "TEXT NOT NULL"⟩,
    ⟨"questions", "JSON NOT NULL"⟩,
    ⟨"created_at", "DATETIME DEFAULT CURRENT_TIMESTAMP"⟩],
   [.foreignKey "student_id" "students" "id"]⟩

/-- `results` on the networked backend (`server.ts` lines 32-41). -/
def serverResults : TableDef :=
  ⟨"results",
   [⟨"id", "INTEGER PRIMARY KEY AUTOINCREMENT"⟩,
    ⟨"test_id", "INTEGER NOT NULL"⟩,
    ⟨"answers", "JSON NOT NULL"⟩,
    ⟨"score", "INTEGER"⟩,
    ⟨"feedback", "TEXT"⟩,
    ⟨"analysis", "JSON"⟩,
    ⟨"completed_at", "DATETIME DEFAULT CURRENT_TIMESTAMP"⟩],
   [.foreignKey "test_id" "tests" "id"]⟩

/-- `students` on the embedded backend (`dataService.ts` lines 25-30):
same columns, but no `UNIQUE(name, age, class)` clause. -/
def embeddedStudents : TableDef :=
  ⟨"students",
   [⟨"id", "INTEGER PRIMARY KEY AUTOINCREMENT"⟩,
    ⟨"name", "TEXT NOT NULL"⟩,
    ⟨"age", "INTEGER NOT NULL"⟩,
    ⟨"class", "TEXT NOT NULL"⟩],
   []⟩

/-- `tests` on the embedded backend (`dataService.ts` lines 31-39):
`questions` is `TEXT`, and there is no foreign-key clause. -/
def embeddedTests : TableDef :=
  ⟨"tests",
   [⟨"id", "INTEGER PRIMARY KEY AUTOINCREMENT"⟩,
    ⟨"student_id", "INTEGER NOT NULL"⟩,
    ⟨"topic", "TEXT NOT NULL"⟩,
    ⟨"complexity", "TEXT NOT NULL"⟩,
    ⟨"concepts", "TEXT NOT NULL"⟩,
    ⟨"questions", "TEXT NOT NULL"⟩,
    ⟨"created_at", "DATETIME DEFAULT CURRENT_TIMESTAMP"⟩],
   []⟩

/-- `results` on the embedded backend (`dataService.ts` lines 40-48):
`answers` and `analysis` are `TEXT`, and there is no foreign-key
clause. -/
def embeddedResults : TableDef :=
  ⟨"results",
   [⟨"id", "INTEGER PRIMARY KEY AUTOINCREMENT"⟩,
    ⟨"test_id", "INTEGER NOT NULL"⟩,
    ⟨"answers", "TEXT NOT NULL"⟩,
    ⟨"score", "INTEGER"⟩,
    ⟨"feedback", "TEXT"⟩,
    ⟨"analysis", "TEXT"⟩,
    ⟨"completed_at", "DATETIME DEFAULT CURRENT_TIMESTAMP"⟩],
   []⟩

/-- The three statements run by `server.ts`, in source order. -/
def serverSchemaTables : List TableDef :=
  [serverStudents, serverTests, serverResults]

/-- The three statements run by `DataService.init`, in source order. -/
def embeddedSchemaTables : List TableDef :=
  [embeddedStudents, embeddedTests, embeddedResults]

/-- A backend's database state: the tables that exist (with the
definition they were created with) and the data rows. -/
structure DbState where
  tables : List TableDef
  store : Store

/-- Semantics of one `CREATE TABLE IF NOT EXISTS` statement: if a table
of that name exists the statement is a no-op (it neither errors nor
alters the existing definition or data); otherwise the table is created
empty.  Data rows are never touched. -/
def createTableIfNotExists (td : TableDef) (db : DbState) : DbState :=
  if (db.tables.map (·.name)).contains td.name then db
  else { db with tables := db.tables ++ [td] }

/-- Running a schema script: the `CREATE TABLE IF NOT EXISTS` statements
in order. -/
def ensureSchema (defs : List TableDef) (db : DbState) : DbState :=
  defs.foldl (fun d td => createTableIfNotExists td d) db

/-- Schema provisioning of the networked backend (`db.exec`,
`server.ts` lines 12-42). -/
def serverEnsureSchema : DbState → DbState :=
  ensureSchema serverSchemaTables

/-- Schema provisioning of the embedded backend (the `execute` call of
`DataService.init`, `dataService.ts` lines 24-49). -/
def embeddedEnsureSchema : DbState → DbState :=
  ensureSchema embeddedSchemaTables

theorem createTable_store (td : TableDef) (db : DbState) :
    (createTableIfNotExists td db).store = db.store := by
  unfold createTableIfNotExists
  split <;> rfl

theorem ensureSchema_store (defs : List TableDef) (db : DbState) :
    (ensureSchema defs db).store = db.store := by
  induction defs generalizing db with
  | nil => rfl
  | cons td rest ih =>
    show (ensureSchema rest (createTableIfNotExists td db)).store = db.store
    rw [ih, createTable_store]

theorem names_sub_createTable (td : TableDef) (db : DbState) {n : String}
    (h : n ∈ db.tables.map (·.name)) :
    n ∈ (createTableIfNotExists td db).tables.map (·.name) := by
  unfold createTableIfNotExists
  split
  · exact h
  · simp only [List.map_append]
    exact List.mem_append_left _ h

theorem createTable_name_mem (td : TableDef) (db : DbState) :
    td.name ∈ (createTableIfNotExists td db).tables.map (·.name) := by
  unfold createTableIfNotExists
  split
  · next h => simpa using h
  · simp

theorem names_sub_ensureSchema (defs : List TableDef) (db : DbState)
    {n : String} (h : n ∈ db.tables.map (·.name)) :
    n ∈ (ensureSchema defs db).tables.map (·.name) := by
  induction defs generalizing db with
  | nil => exact h
  | cons td rest ih =>
    exact ih (createTableIfNotExists td db) (names_sub_createTable td db h)

theorem ensureSchema_names (defs : List TableDef) (db : DbState)
    {td : TableDef} (h : td ∈ defs) :
    td.name ∈ (ensureSchema defs db).tables.map (·.name) := by
  induction defs generalizing db with
  | nil => cases h
  | cons u rest ih =>
    rcases List.mem_cons.mp h with rfl | h2
    · exact names_sub_ensureSchema rest _ (createTable_name_mem td db)
    · exact ih (createTableIfNotExists u db) h2

theorem createTable_eq_of_mem (td : TableDef) (db : DbState)
    (h : td.name ∈ db.tables.map (·.name)) :
    createTableIfNotExists td db = db := by
  unfold createTableIfNotExists
  rw [if_pos]
  simpa using h

theorem ensureSchema_eq_of_all_mem (defs : List TableDef) (db : DbState)
    (h : ∀ td ∈ defs, td.name ∈ db.tables.map (·.name)) :
    ensureSchema defs db = db := by
  induction defs generalizing db with
  | nil => rfl
  | cons td rest ih =>
    show ensureSchema rest (createTableIfNotExists td db) = db
    rw [createTable_eq_of_mem td db (h td (List.mem_cons_self td rest))]
    exact ih db (fun u hu => h u (List.mem_cons_of_mem td hu))

/-- Running a schema script a second time changes nothing. -/
theorem ensureSchema_idem (defs : List TableDef) (db : DbState) :
    ensureSchema defs (ensureSchema defs db) = ensureSchema defs db :=
  ensureSchema_eq_of_all_mem defs _ (fun _ h => ensureSchema_names defs db h)

theorem iterate_eq_of_idem (f : α → α) (hf : ∀ x, f (f x) = f x)
    (x : α) : ∀ N, 1 ≤ N → f^[N] x = f x := by
  have aux : ∀ n y, f^[n] (f y) = f y := by
    intro n
    induction n with
    | zero => intro y; rfl
    | succ m ih =>
      intro y
      show f^[m] (f (f y)) = f y
      rw [hf y]
      exact ih y
  intro N hN
  obtain ⟨m, rfl⟩ : ∃ m, N = m + 1 := ⟨N - 1, by omega⟩
  show f^[m] (f x) = f x
  exact aux m x

/-! ## Claim C5: schema parity across backends -/

/-- Counterexample to C5 as stated.  The claim asserts that the
`UNIQUE(name, age, class)` constraint on `students` and the two
foreign-key constraints are present on both backends; in fact all three
are declared only by the networked schema — the embedded `CREATE TABLE`
statements carry no table-level constraint clauses at all. -/
theorem claim_C5_counterexample :
    TableConstraint.uniqueCols ["name", "age", "class"]
        ∈ serverStudents.constraints
      ∧ embeddedStudents.constraints = []
      ∧ TableConstraint.foreignKey "student_id" "students" "id"
        ∈ serverTests.constraints
      ∧ embeddedTests.constraints = []
      ∧ TableConstraint.foreignKey "test_id" "tests" "id"
        ∈ serverResults.constraints
      ∧ embeddedResults.constraints = [] := by
  refine ⟨?_, rfl, ?_, rfl, ?_, rfl⟩ <;> decide

/-- Claim C5, amended.  Both backends provision the same three tables
(`students`, `tests`, `results`) with identical column-name sets, the
column types differing only in SQL dialect; but the constraint sets are
not identical: the `UNIQUE(name, age, class)` constraint on `students`
and the foreign keys `tests.student_id → students.id` and
`results.test_id → tests.id` are declared only on the networked backend,
while the embedded schema declares no table-level constraints. -/
theorem claim_C5_schema_parity_amended :
    serverSchemaTables.map (·.name) = ["students", "tests", "results"]
      ∧ embeddedSchemaTables.map (·.name) = ["students", "tests", "results"]
      ∧ serverStudents.columns.map (·.name) = embeddedStudents.columns.map (·.name)
      ∧ serverTests.columns.map (·.name) = embeddedTests.columns.map (·.name)
      ∧ serverResults.columns.map (·.name) = embeddedResults.columns.map (·.name)
      ∧ TableConstraint.uniqueCols ["name", "age", "class"]
          ∈ serverStudents.constraints
      ∧ TableConstraint.foreignKey "student_id" "students" "id"
          ∈ serverTests.constraints
      ∧ TableConstraint.foreignKey "test_id" "tests" "id"
          ∈ serverResults.constraints
      ∧ embeddedStudents.constraints = []
      ∧ embeddedTests.constraints = []
      ∧ embeddedResults.constraints = [] := by
  refine ⟨rfl, rfl, rfl, rfl, rfl, ?_, ?_, ?_, rfl, rfl, rfl⟩ <;> decide

/-! ## Claim C6: idempotent schema provisioning -/

/-- Claim C6.  Idempotent schema provisioning, on both backends: for any
database state and any N ≥ 1, running the provisioning script N times
produces exactly the state produced by running it once (in particular the
same tables with the same column sets), provisioning never errors on a
repeated invocation (it is a total function), and no invocation drops or
alters existing data — every data row present before an invocation is
unchanged after it. -/
theorem claim_C6_idempotent_provisioning (db : DbState) (N : Nat)
    (hN : 1 ≤ N) :
    serverEnsureSchema^[N] db = serverEnsureSchema db
      ∧ (serverEnsureSchema db).store = db.store
      ∧ embeddedEnsureSchema^[N] db = embeddedEnsureSchema db
      ∧ (embeddedEnsureSchema db).store = db.store := by
  refine ⟨?_, ?_, ?_, ?_⟩
  · exact iterate_eq_of_idem serverEnsureSchema
      (fun x => ensureSchema_idem serverSchemaTables x) db N hN
  · exact ensureSchema_store serverSchemaTables db
  · exact iterate_eq_of_idem embeddedEnsureSchema
      (fun x => ensureSchema_idem embeddedSchemaTables x) db N hN
  · exact ensureSchema_store embeddedSchemaTables db

/-- Witness for C6: provisioning three times from an empty database
equals provisioning once, and a stored data row survives provisioning. -/
theorem claim_C6_idempotent_provisioning_witness :
    serverEnsureSchema^[3] ⟨[], ⟨[⟨1, "Ann", 10, "5th"⟩], [], []⟩⟩
        = serverEnsureSchema ⟨[], ⟨[⟨1, "Ann", 10, "5th"⟩], [], []⟩⟩
      ∧ (embeddedEnsureSchema ⟨[], ⟨[⟨1, "Ann", 10, "5th"⟩], [], []⟩⟩).store
        = ⟨[⟨1, "Ann", 10, "5th"⟩], [], []⟩ := by
  have h := claim_C6_idempotent_provisioning
    ⟨[], ⟨[⟨1, "Ann", 10, "5th"⟩], [], []⟩⟩ 3 (by decide)
  exact ⟨h.1, h.2.2.2⟩

/-! ## Claim C9: referential integrity of results -/

/-- Counterexample to C9 as stated.  On the embedded backend,
`saveResult` called with `testId = 99` against a store containing no
test at all succeeds (returning a fresh result id) and appends a result
row whose `test_id` is 99 — a dangling `Result` — instead of failing. -/
theorem claim_C9_counterexample :
    ((DataService.saveResult 99 (Json.obj []) (some 100) (some "Great job")
        none 7 ⟨[⟨1, "Sam", 9, "4th"⟩], [], []⟩).1 = ⟨1⟩)
      ∧ ((DataService.saveResult 99 (Json.obj []) (some 100) (some "Great job")
        none 7 ⟨[⟨1, "Sam", 9, "4th"⟩], [], []⟩).2.results.map (·.test_id) = [99])
      ∧ ((⟨[⟨1, "Sam", 9, "4th"⟩], [], []⟩ : Store).tests.map (·.id) = []) :=
  ⟨rfl, rfl, rfl⟩

/-- Claim C9, amended.  The networked schema declares the foreign key
`results.test_id → tests.id`, but the embedded schema declares no
foreign key at all; and on the embedded backend `saveResult` performs no
referential check — for every store and every `testId`, including one
identifying no existing test, it succeeds and appends a result row
referencing that `testId`, so a dangling `Result` can be created there. -/
theorem claim_C9_referential_integrity_amended :
    TableConstraint.foreignKey "test_id" "tests" "id" ∈ serverResults.constraints
      ∧ embeddedResults.constraints = []
      ∧ ∀ (s : Store) (testId : Nat) (answers : Json) (score : Option Int)
          (feedback : Option String) (analysis : Option Json) (now : Nat),
          (DataService.saveResult testId answers score feedback analysis now s).2.results
            = s.results ++ [⟨nextId (s.results.map (·.id)), testId, answers,
                score, feedback, analysis, now⟩] := by
  refine ⟨by decide, rfl, ?_⟩
  intro s testId answers score feedback analysis now
  rfl

/-! ## Driver-level model of the embedded backend

Transliteration of `src/src/services/dataService.ts` at the level of the
Capacitor SQLite driver calls: each operation is a function of the
outcomes of the driver calls it makes (`query` / `run` resolving to a
value or rejecting with an error).  The operations contain no
`try`/`catch`, so a rejected driver call propagates; `init` wraps its
body in `try { ... } catch (err) { console.error(...) }` and therefore
returns normally even when connection or schema provisioning failed. -/

/-- The `changes` object of a Capacitor `run` response; `lastId` is
optional — the driver may not report the id of the inserted row. -/
structure CapChanges where
  lastId : Option Nat
deriving Repr, DecidableEq

/-- A Capacitor `run` response: `insert.changes` is itself optional,
hence the optional chaining `insert.changes?.lastId` in the source. -/
structure CapRunResult where
  changes : Option CapChanges
deriving Repr, DecidableEq

/-- A Capacitor `query` response: `result.values` may be undefined. -/
structure CapQueryResult (α : Type) where
  values : Option (List α)
deriving Repr

/-- The student record `login` resolves with on the embedded backend:
either a stored row (id present) or, after an insert,
`{ id: insert.changes?.lastId, name, age, class: className }` — whose
`id` is undefined whenever the driver reported no `lastId`. -/
structure LoginStudent where
  id : Option Nat
  name : String
  age : Int
  className : String
deriving Repr, DecidableEq

/-- The `{ id: insert.changes?.lastId }` response of the embedded
`saveTest` and `saveResult`. -/
structure OptIdResp where
  id : Option Nat
deriving Repr, DecidableEq

namespace DataServiceDriver

/-- `DataService.init` (`dataService.ts` lines 16-54) on the embedded
backend, as a function of the connection/open outcome and the schema
`execute` outcome.  The entire body is inside
`try { ... } catch (err) { console.error('SQLite init failed', err) }`:
a failure of either step is logged and then discarded, and `init`
resolves normally. -/
def init (conn : Except String Unit) (exec : Except String Unit) :
    Except String Unit :=
  match conn with
  | .error _ => .ok ()
  | .ok _ =>
    match exec with
    | .error _ => .ok ()
    | .ok _ => .ok ()

/-- Embedded branch of `DataService.login` (`dataService.ts` lines
65-74) as a function of the two driver calls: the `query` for the triple
and — only reached when the query resolves with no row — the insert
`run`.  There is no `catch`: a rejected driver call propagates. -/
def login (queryRes : Except String (CapQueryResult StudentRow))
    (runRes : Except String CapRunResult)
    (name : String) (age : Int) (className : String) :
    Except String LoginStudent :=
  match queryRes with
  | .error e => .error e
  | .ok result =>
    match result.values with
    | some (v :: _) => .ok ⟨some v.id, v.name, v.age, v.className⟩
    | _ =>
      match runRes with
      | .error e => .error e
      | .ok insert =>
        .ok ⟨insert.changes.bind CapChanges.lastId, name, age, className⟩

/-- Embedded branch of `DataService.saveTest` (`dataService.ts` lines
85-91) as a function of the insert `run` outcome: resolves with
`{ id: insert.changes?.lastId }`, propagates a rejection. -/
def saveTest (runRes : Except String CapRunResult) :
    Except String OptIdResp :=
  match runRes with
  | .error e => .error e
  | .ok insert => .ok ⟨insert.changes.bind CapChanges.lastId⟩

/-- Embedded branch of `DataService.getHistory` (`dataService.ts` lines
98-112) as a function of the join-query outcome: maps the row-parsing
function over `result.values || []`, propagates a rejection. -/
def getHistory (queryRes : Except String (CapQueryResult HistoryRow)) :
    Except String (List HistoryRow) :=
  match queryRes with
  | .error e => .error e
  | .ok result => .ok ((result.values.getD []).map parseHistoryRow)

/-- Embedded branch of `DataService.saveResult` (`dataService.ts` lines
123-129) as a function of the insert `run` outcome. -/
def saveResult (runRes : Except String CapRunResult) :
    Except String OptIdResp :=
  match runRes with
  | .error e => .error e
  | .ok insert => .ok ⟨insert.changes.bind CapChanges.lastId⟩

end DataServiceDriver

/-! ## Claim C7: error propagation at the Façade boundary -/

/-- Counterexample to C7 as stated.  On the embedded backend a failed
connection at startup ("storage unavailable") is caught by `init`'s
`catch`, only logged, and `init` resolves successfully — the
initialization failure is not surfaced to the caller. -/
theorem claim_C7_counterexample :
    DataServiceDriver.init (.error "storage unavailable") (.ok ())
      = .ok () := rfl

/-- Claim C7, amended.  On the embedded backend, `init` catches both
connection failures and schema-provisioning failures and returns
success regardless (the failure is only logged, never surfaced);
whereas the four Façade operations' embedded branches contain no
`catch` and propagate every underlying storage failure to the caller
unchanged. -/
theorem claim_C7_error_propagation_amended :
    (∀ (e : String) (x : Except String Unit),
        DataServiceDriver.init (.error e) x = .ok ())
      ∧ (∀ e : String, DataServiceDriver.init (.ok ()) (.error e) = .ok ())
      ∧ (∀ (e : String) (runRes : Except String CapRunResult)
          (name : String) (age : Int) (className : String),
          DataServiceDriver.login (.error e) runRes name age className
            = .error e)
      ∧ (∀ (e : String) (name : String) (age : Int) (className : String),
          DataServiceDriver.login (.ok ⟨some []⟩) (.error e) name age className
            = .error e)
      ∧ (∀ (e : String) (name : String) (age : Int) (className : String),
          DataServiceDriver.login (.ok ⟨none⟩) (.error e) name age className
            = .error e)
      ∧ (∀ e : String, DataServiceDriver.saveTest (.error e) = .error e)
      ∧ (∀ e : String, DataServiceDriver.getHistory (.error e) = .error e)
      ∧ (∀ e : String, DataServiceDriver.saveResult (.error e) = .error e) :=
  ⟨fun _ _ => rfl, fun _ => rfl, fun _ _ _ _ _ => rfl, fun _ _ _ _ => rfl,
   fun _ _ _ _ => rfl, fun _ => rfl, fun _ => rfl, fun _ => rfl⟩

/-! ## Claim C10: missing lastId yields a successful write with an
undefined id -/

/-- Claim C10.  On the embedded backend the identifier returned by a
successful write is not guaranteed to be defined: `login` (in its
creation branch), `saveTest` and `saveResult` read the returned id from
`insert.changes?.lastId` with no check, so whenever the driver's `run`
resolves without reporting a `lastId`, the operation still resolves
successfully with `id` undefined instead of failing. -/
theorem claim_C10_undefined_id (insert : CapRunResult)
    (h : insert.changes.bind CapChanges.lastId = none)
    (name : String) (age : Int) (className : String) :
    DataServiceDriver.login (.ok ⟨some []⟩) (.ok insert) name age className
        = .ok ⟨none, name, age, className⟩
      ∧ DataServiceDriver.saveTest (.ok insert) = .ok ⟨none⟩
      ∧ DataServiceDriver.saveResult (.ok insert) = .ok ⟨none⟩ := by
  refine ⟨?_, ?_, ?_⟩
  · simp [DataServiceDriver.login, h]
  · simp [DataServiceDriver.saveTest, h]
  · simp [DataServiceDriver.saveResult, h]

/-- Witness for C10: a driver `run` response with no `changes` object at
all, and one with a `changes` object lacking `lastId`. -/
theorem claim_C10_undefined_id_witness :
    (DataServiceDriver.login (.ok ⟨some []⟩) (.ok ⟨none⟩) "Ann" 10 "5th"
        = .ok ⟨none, "Ann", 10, "5th"⟩)
      ∧ DataServiceDriver.saveTest (.ok ⟨some ⟨none⟩⟩) = .ok ⟨none⟩ :=
  ⟨(claim_C10_undefined_id ⟨none⟩ rfl "Ann" 10 "5th").1,
   (claim_C10_undefined_id ⟨some ⟨none⟩⟩ rfl "Ann" 10 "5th").2.1⟩

/-! ## A JSON text parser

Model of the JavaScript `JSON.parse` builtin, used by the
question/evaluation service adapter (`src/src/services/geminiService.ts`)
on text received from the external service — text that, unlike the
adapter's own output, may fail to parse.  Numbers are modelled as
integers (the adapter's schema uses integral ids and scores; fractional
and exponent numerals are out of scope). -/

/-- The opening curly brace character. -/
def braceOpen : Char := Char.ofNat 123

/-- The closing curly brace character. -/
def braceClose : Char := Char.ofNat 125

/-- Value of one hexadecimal digit. -/
def hexVal (c : Char) : Option Nat :=
  if '0' ≤ c ∧ c ≤ '9' then some (c.toNat - 48)
  else if 'a' ≤ c ∧ c ≤ 'f' then some (c.toNat - 87)
  else if 'A' ≤ c ∧ c ≤ 'F' then some (c.toNat - 55)
  else none

/-- JSON whitespace. -/
def isWs (c : Char) : Bool :=
  c == ' ' || c == '\n' || c == '\t' || c == '\r'

/-- Drops leading JSON whitespace. -/
def skipWs : List Char → List Char
  | [] => []
  | c :: cs => if isWs c then skipWs cs else c :: cs

/-- Parses the body of a JSON string literal (the opening quote already
consumed), handling the standard escapes, and returns the string together
with the input following the closing quote. -/
def parseStringBody (acc : List Char) : List Char → Option (String × List Char)
  | [] => none
  | c :: cs =>
    if c = '"' then some (String.mk acc.reverse, cs)
    else if c = '\\' then
      match cs with
      | [] => none
      | e :: cs2 =>
        if e = '"' then parseStringBody ( '"' :: acc) cs2
        else if e = '\\' then parseStringBody ( '\\' :: acc) cs2
        else if e = '/' then parseStringBody ( '/' :: acc) cs2
        else if e = 'n' then parseStringBody ( '\n' :: acc) cs2
        else if e = 't' then parseStringBody ( '\t' :: acc) cs2
        else if e = 'r' then parseStringBody ( '\r' :: acc) cs2
        else if e = 'b' then parseStringBody (Char.ofNat 8 :: acc) cs2
        else if e = 'f' then parseStringBody (Char.ofNat 12 :: acc) cs2
        else if e = 'u' then
          match cs2 with
          | h1 :: h2 :: h3 :: h4 :: cs3 =>
            match hexVal h1, hexVal h2, hexVal h3, hexVal h4 with
            | some a, some b, some c2, some d =>
              parseStringBody
                (Char.ofNat (((a * 16 + b) * 16 + c2) * 16 + d) :: acc) cs3
            | _, _, _, _ => none
          | _ => none
        else none
    else parseStringBody (c :: acc) cs

/-- Consumes a run of decimal digits, accumulating their value. -/
def parseDigits (acc : Nat) : List Char → Nat × List Char
  | [] => (acc, [])
  | c :: cs =>
    if c.isDigit then parseDigits (acc * 10 + (c.toNat - 48)) cs
    else (acc, c :: cs)

/-- Parses an integer JSON numeral, with optional leading minus. -/
def parseNumber : List Char → Option (Json × List Char)
  | [] => none
  | c :: cs =>
    if c = '-' then
      match cs with
      | d :: _ =>
        if d.isDigit then
          match parseDigits 0 cs with
          | (n, rest) => some (Json.num (-(n : Int)), rest)
        else none
      | [] => none
    else if c.isDigit then
      match parseDigits 0 (c :: cs) with
      | (n, rest) => some (Json.num (n : Int), rest)
    else none

mutual

/-- Parses one JSON value, returning it with the remaining input.  The
fuel argument bounds the recursion depth; `parseJson` supplies more fuel
than any input it is called on can consume. -/
def parseValue : Nat → List Char → Option (Json × List Char)
  | 0, _ => none
  | fuel + 1, cs =>
    match skipWs cs with
    | [] => none
    | c :: rest =>
      if c = 'n' then
        match rest with
        | 'u' :: 'l' :: 'l' :: rest2 => some (Json.null, rest2)
        | _ => none
      else if c = 't' then
        match rest with
        | 'r' :: 'u' :: 'e' :: rest2 => some (Json.bool true, rest2)
        | _ => none
      else if c = 'f' then
        match rest with
        | 'a' :: 'l' :: 's' :: 'e' :: rest2 => some (Json.bool false, rest2)
        | _ => none
      else if c = '"' then
        match parseStringBody [] rest with
        | some (s, rest2) => some (Json.str s, rest2)
        | none => none
      else if c = '[' then
        match skipWs rest with
        | d :: rest2 =>
          if d = ']' then some (Json.arr [], rest2)
          else parseElems fuel (d :: rest2) []
        | [] => none
      else if c = braceOpen then
        match skipWs rest with
        | d :: rest2 =>
          if d = braceClose then some (Json.obj [], rest2)
          else parseMembers fuel (d :: rest2) []
        | [] => none
      else parseNumber (c :: rest)

/-- Parses the comma-separated elements of a non-empty JSON array, up to
and including the closing bracket. -/
def parseElems : Nat → List Char → List Json → Option (Json × List Char)
  | 0, _, _ => none
  | fuel + 1, cs, acc =>
    match parseValue fuel cs with
    | none => none
    | some (v, rest) =>
      match skipWs rest with
      | c :: rest2 =>
        if c = ',' then parseElems fuel rest2 (v :: acc)
        else if c = ']' then some (Json.arr (v :: acc).reverse, rest2)
        else none
      | [] => none

/-- Parses the comma-separated members of a non-empty JSON object, up to
and including the closing brace. -/
def parseMembers : Nat → List Char → List (String × Json) →
    Option (Json × List Char)
  | 0, _, _ => none
  | fuel + 1, cs, acc =>
    match skipWs cs with
    | c :: rest =>
      if c = '"' then
        match parseStringBody [] rest with
        | some (k, rest2) =>
          match skipWs rest2 with
          | d :: rest3 =>
            if d = ':' then
              match parseValue fuel rest3 with
              | some (v, rest4) =>
                match skipWs rest4 with
                | e2 :: rest5 =>
                  if e2 = ',' then parseMembers fuel rest5 ((k, v) :: acc)
                  else if e2 = braceClose then
                    some (Json.obj ((k, v) :: acc).reverse, rest5)
                  else none
                | [] => none
              | none => none
            else none
          | [] => none
        | none => none
      else none
    | [] => none

end

/-- `JSON.parse`: parses a whole string as one JSON value, requiring
nothing but whitespace to follow; `none` models a thrown `SyntaxError`. -/
def parseJson (s : String) : Option Json :=
  match parseValue (s.length * 2 + 8) s.data with
  | some (j, rest) => if skipWs rest = [] then some j else none
  | none => none

/-- Sanity check: the parser accepts a small array numeral input. -/
theorem parseJson_sample :
    parseJson "[1, -2]" = some (Json.arr [Json.num 1, Json.num (-2)]) := rfl

/-- Sanity check: the parser accepts a small object input. -/
theorem parseJson_sample_obj :
    parseJson " \x7b \"score\": 85 \x7d "
      = some (Json.obj [("score", Json.num 85)]) := rfl

/-! ## The question/evaluation service adapter

Model of `generateQuestions` (`src/src/services/geminiService.ts` lines
21-61) and `evaluateAnswers` (lines 73-116) at their parsing boundary:
each awaits the external service's response and returns
`JSON.parse(response.text || "[]")` respectively
`JSON.parse(response.text || "\x7b\x7d")`.  The model takes the
response's `text` property (`none` for undefined) and returns the parsed
value, or the thrown `SyntaxError` when `JSON.parse` fails.  The prompt
construction and the network call itself are external and not modelled;
neither function validates the parsed value's shape. -/

/-- `generateQuestions`: parse of the response text, an empty or
undefined text defaulting to the literal `"[]"` before parsing (the
JavaScript `||` treats both as falsy). -/
def generateQuestions (responseText : Option String) : Except String Json :=
  let text :=
    match responseText with
    | none => "[]"
    | some s => if s = "" then "[]" else s
  match parseJson text with
  | some j => .ok j
  | none => .error "SyntaxError"

/-- `evaluateAnswers`: parse of the response text, an empty or undefined
text defaulting to the literal `"\x7b\x7d"` before parsing. -/
def evaluateAnswers (responseText : Option String) : Except String Json :=
  let text :=
    match responseText with
    | none => "\x7b\x7d"
    | some s => if s = "" then "\x7b\x7d" else s
  match parseJson text with
  | some j => .ok j
  | none => .error "SyntaxError"

/-! ## Claim C8: tolerance of malformed external-service output -/

/-- Counterexample to C8 as stated.  The claim asserts that every
response whose text is not parseable as JSON yields an empty question
sequence / empty object; in fact only the empty-text case is defaulted —
a non-empty unparseable text reaches `JSON.parse`, which throws, so both
adapter functions reject instead of returning an empty value. -/
theorem claim_C8_counterexample :
    generateQuestions (some "not json") = .error "SyntaxError"
      ∧ evaluateAnswers (some "not json") = .error "SyntaxError" :=
  ⟨rfl, rfl⟩

/-- Claim C8, amended.  A response whose text is empty or undefined is
tolerated: `generateQuestions` returns the empty array and
`evaluateAnswers` the empty object.  But a response whose non-empty text
is not parseable as JSON (for example plain prose) is not tolerated:
`JSON.parse` throws and the exception propagates out of the adapter. -/
theorem claim_C8_malformed_output_amended :
    generateQuestions none = .ok (Json.arr [])
      ∧ generateQuestions (some "") = .ok (Json.arr [])
      ∧ evaluateAnswers none = .ok (Json.obj [])
      ∧ evaluateAnswers (some "") = .ok (Json.obj [])
      ∧ generateQuestions (some "I cannot answer that.") = .error "SyntaxError"
      ∧ evaluateAnswers (some "Sorry, try again later.") = .error "SyntaxError" :=
  ⟨rfl, rfl, rfl, rfl, rfl, rfl⟩
